import Mathlib

/-
Verification of the V4-front Forth-style bytecode compiler.

The development shallowly embeds the compiler sources:
  * `src/unnamed/part_001` — the unified `compile_internal` with word
    definitions, control flow (IF/ELSE/THEN, BEGIN/UNTIL/WHILE/REPEAT/AGAIN,
    DO/LOOP/+LOOP/LEAVE), dictionary lookup, integer literals, operator
    dispatch and final RET handling; plus `v4front_compile`/`v4front_free`.
  * `src/src/front_compile.cpp` — the Tier-0 frontend's `parse_int32`.

Opcode byte values live in the external header `v4/opcodes.hpp`, which is not
part of this repository.  The embedding is therefore parameterised by an
encoding `Op → Nat`.  The repository's own tests pin `LIT = 0x00`,
`RET = 0x51` (tests/test_front.cpp and tests/test_sys_compile.cpp check these
bytes), and the disassembler requires distinct byte values, so a valid
encoding is injective, byte-sized, and fixes those two values.

Heap allocation (realloc in `append_byte`, malloc/strdup in the word-list
transfer) can fail; the embedding threads an explicit allocation oracle, a
list of booleans consumed one per allocation event (an exhausted oracle means
allocation always succeeds).
-/

namespace V4Front

/-- Opcodes emitted by `compile_internal` in src/unnamed/part_001
(`v4::Op` members actually referenced by that file). -/
inductive Op where
  | LIT | CALL | RET | JMP | JZ
  | ADD | SUB | MUL | DIV | MOD
  | EQ | NE | LT | LE | GT | GE
  | AND | OR | XOR | INVERT
  | DUP | DROP | SWAP | OVER
  | TOR | FROMR | RFETCH
  | LOAD | STORE
deriving DecidableEq, Repr, Fintype

/-- Error taxonomy (`v4front::FrontErr`, cf. include/v4front/compile.h and the
error codes referenced by src/unnamed/part_001).  `OK` is represented by
`none` in results, so it is absent here. -/
inductive FrontErr where
  | UnknownToken | InvalidInteger | OutOfMemory | BufferTooSmall
  | ControlDepthExceeded
  | ElseWithoutIf | DuplicateElse | ThenWithoutIf | UnclosedIf
  | UntilWithoutBegin | UnclosedBegin | WhileWithoutBegin | DuplicateWhile
  | RepeatWithoutBegin | RepeatWithoutWhile | UntilAfterWhile
  | AgainWithoutBegin | AgainAfterWhile
  | LoopWithoutDo | PLoopWithoutDo | LeaveWithoutDo | LeaveDepthExceeded
  | UnclosedDo | DictionaryFull
  | NestedColon | ColonWithoutName | SemicolonWithoutColon | DuplicateWord
  | UnclosedColon
  | UnterminatedComment
  | ConstantWithoutValue | ConstantWithoutName | VariableWithoutName
deriving DecidableEq, Repr

/-- A byte encoding of the opcode set (the numeric values assigned by the
external `v4/opcodes.def`). -/
def OpEnc : Type := Op → Nat

/-- What the repository guarantees about the external opcode encoding:
byte-sized distinct values (the disassembler decodes bytes back to opcodes),
with `LIT = 0x00` and `RET = 0x51` pinned by the repository's own tests. -/
def ValidEnc (e : OpEnc) : Prop :=
  Function.Injective e ∧ (∀ o : Op, e o < 256) ∧ e Op.LIT = 0 ∧ e Op.RET = 81

instance : DecidablePred ValidEnc := fun e => by
  unfold ValidEnc; infer_instance

/-- A concrete sample encoding satisfying `ValidEnc`, used to instantiate
witnesses and counterexamples (`LIT`/`RET` as pinned by the tests, the rest
arbitrary but distinct). -/
def sampleEnc : OpEnc := fun o =>
  match o with
  | .LIT => 0 | .CALL => 80 | .RET => 81 | .JMP => 65 | .JZ => 64
  | .ADD => 16 | .SUB => 17 | .MUL => 18 | .DIV => 19 | .MOD => 20
  | .EQ => 24 | .NE => 25 | .LT => 26 | .LE => 27 | .GT => 28 | .GE => 29
  | .AND => 21 | .OR => 22 | .XOR => 23 | .INVERT => 30
  | .DUP => 32 | .DROP => 33 | .SWAP => 34 | .OVER => 35
  | .TOR => 48 | .FROMR => 49 | .RFETCH => 50
  | .LOAD => 40 | .STORE => 41

-- ---------------------------------------------------------------------------
-- Dynamic bytecode buffer management (append_byte and friends, part_001)
-- ---------------------------------------------------------------------------

/-- The growable byte buffer of `compile_internal`: contents plus current
capacity (`uint8_t* buf` with `*size`/`*cap`). -/
structure Buffer where
  data : List Nat
  cap : Nat
deriving DecidableEq, Repr

def Buffer.size (b : Buffer) : Nat := b.data.length

def emptyBuffer : Buffer := ⟨[], 0⟩

/-- Take the outcome of the next allocation from the oracle; an exhausted
oracle always succeeds. -/
def acquire : List Bool → Bool × List Bool
  | [] => (true, [])
  | b :: r => (b, r)

/-- `append_byte`: grow on `size >= cap` (64 then doubling; the realloc is an
allocation event), then store the byte. -/
def append_byte (o : List Bool) (b : Buffer) (x : Nat) :
    Except FrontErr (Buffer × List Bool) :=
  if b.cap ≤ b.data.length then
    match acquire o with
    | (true, o1) =>
        .ok (⟨b.data ++ [x], if b.cap = 0 then 64 else b.cap * 2⟩, o1)
    | (false, _) => .error .OutOfMemory
  else
    .ok (⟨b.data ++ [x], b.cap⟩, o)

/-- Little-endian bytes of a signed 16-bit value (what `append_i16_le` and
`backpatch_i16_le` store for an `int16_t`). -/
def le16 (v : Int) : List Nat :=
  [(v.emod 65536).toNat % 256, (v.emod 65536).toNat / 256]

/-- Little-endian bytes of a signed 32-bit value (what `append_i32_le`
stores; call sites pass the low 32 bits of a C `long`). -/
def le32 (v : Int) : List Nat :=
  [(v.emod 4294967296).toNat % 256,
   (v.emod 4294967296).toNat / 256 % 256,
   (v.emod 4294967296).toNat / 65536 % 256,
   (v.emod 4294967296).toNat / 16777216 % 256]

/-- `backpatch_i16_le`: overwrite two bytes in place at `pos`. -/
def backpatch_i16_le (data : List Nat) (pos : Nat) (v : Int) : List Nat :=
  (data.set pos ((v.emod 65536).toNat % 256)).set (pos + 1)
    ((v.emod 65536).toNat / 256)

-- ---------------------------------------------------------------------------
-- Character helpers (C locale)
-- ---------------------------------------------------------------------------

/-- C `isspace` in the default locale. -/
def isSpaceC (c : Char) : Bool :=
  c = ' ' || c = '\t' || c = '\n' || c = '\x0b' || c = '\x0c' || c = '\r'

/-- C `tolower` in the default locale (ASCII letters only). -/
def lowerCh (c : Char) : Char :=
  if 'A' ≤ c ∧ c ≤ 'Z' then Char.ofNat (c.toNat + 32) else c

/-- `str_eq_ci`: case-insensitive equality of NUL-free byte strings. -/
def str_eq_ci : List Char → List Char → Bool
  | [], [] => true
  | a :: as, b :: bs => lowerCh a = lowerCh b && str_eq_ci as bs
  | _, _ => false

-- ---------------------------------------------------------------------------
-- strtol(token, &end, 0) on an LP64 platform, and the two integer parsers
-- ---------------------------------------------------------------------------

def isDigitIn (base : Nat) (c : Char) : Bool :=
  match base with
  | 8 => '0' ≤ c && c ≤ '7'
  | 10 => '0' ≤ c && c ≤ '9'
  | _ => ('0' ≤ c && c ≤ '9') || ('a' ≤ c && c ≤ 'f') || ('A' ≤ c && c ≤ 'F')

def digitVal (c : Char) : Nat :=
  if '0' ≤ c ∧ c ≤ '9' then c.toNat - '0'.toNat
  else if 'a' ≤ c ∧ c ≤ 'f' then c.toNat - 'a'.toNat + 10
  else if 'A' ≤ c ∧ c ≤ 'F' then c.toNat - 'A'.toNat + 10
  else 0

/-- Greedily consume digits of `base`, returning the accumulated magnitude,
the unconsumed remainder, and whether at least one digit was consumed. -/
def takeDigits (base : Nat) (acc : Nat) (any : Bool) :
    List Char → Nat × List Char × Bool
  | [] => (acc, [], any)
  | c :: cs =>
      if isDigitIn base c then takeDigits base (acc * base + digitVal c) true cs
      else (acc, c :: cs, any)

/-- Core of C `strtol(str, &end, 0)` on an LP64 platform: skip whitespace,
optional sign, base auto-detection (`0x`/`0X` hex needs a following hex
digit, else a leading `0` is octal, else decimal).  Returns `none` when no
digits form a subject sequence; otherwise the clamped `long` value, the
remainder the end pointer designates, and whether the exact value overflowed
the `long` range (`errno == ERANGE`). -/
def strtolCore (cs : List Char) : Option (Int × List Char × Bool) :=
  let cs1 := cs.dropWhile isSpaceC
  let sign : Int × List Char :=
    match cs1 with
    | '+' :: r => (1, r)
    | '-' :: r => (-1, r)
    | _ => (1, cs1)
  let parsed : Option (Nat × List Char) :=
    match sign.2 with
    | '0' :: x :: r =>
        if (x = 'x' || x = 'X') && (match r with
            | d :: _ => isDigitIn 16 d
            | [] => false) then
          match takeDigits 16 0 false r with
          | (m, rest, _) => some (m, rest)
        else
          match takeDigits 8 0 true (x :: r) with
          | (m, rest, _) => some (m, rest)
    | '0' :: r =>
        match takeDigits 8 0 true r with
        | (m, rest, _) => some (m, rest)
    | other =>
        match takeDigits 10 0 false other with
        | (m, rest, any) => if any then some (m, rest) else none
  match parsed with
  | none => none
  | some (m, rest) =>
      let sv : Int := sign.1 * (m : Int)
      if sv > 9223372036854775807 then some (9223372036854775807, rest, true)
      else if sv < -9223372036854775808 then
        some (-9223372036854775808, rest, true)
      else some (sv, rest, false)

/-- `try_parse_int` (part_001): `strtol` base 0, requiring the whole token to
be consumed; range errors are ignored (the clamped `long` is kept) and the
value is later truncated to its low 32 bits by `append_i32_le`. -/
def try_parse_int (tok : List Char) : Option Int :=
  match strtolCore tok with
  | none => none
  | some (v, rest, _) => if rest = [] then some v else none

/-- `parse_int32` (src/src/front_compile.cpp): like `try_parse_int` but
rejecting `ERANGE`, skipping trailing whitespace, and rejecting values
outside the `int32_t` range. -/
def parse_int32 (tok : List Char) : Option Int :=
  match strtolCore tok with
  | none => none
  | some (v, rest, ovf) =>
      if ovf then none
      else if rest.dropWhile isSpaceC ≠ [] then none
      else if v < -2147483648 ∨ v > 2147483647 then none
      else some v

-- ---------------------------------------------------------------------------
-- Tokenizer (the inline whitespace splitter of part_001's compile_internal;
-- tokens are truncated to 255 bytes by the `char token[256]` copy)
-- ---------------------------------------------------------------------------

def tokenizeAux : Nat → List Char → List (List Char)
  | 0, _ => []
  | fuel + 1, cs =>
      match cs.dropWhile isSpaceC with
      | [] => []
      | c :: rest =>
          ((c :: rest).takeWhile (fun d => ¬ isSpaceC d)).take 255 ::
            tokenizeAux fuel ((c :: rest).dropWhile (fun d => ¬ isSpaceC d))

def tokenize (cs : List Char) : List (List Char) :=
  tokenizeAux (cs.length + 1) cs

-- ---------------------------------------------------------------------------
-- Compilation state of part_001's compile_internal
-- ---------------------------------------------------------------------------

/-- `WordDefEntry`: a sealed dictionary entry (name and owned bytecode). -/
structure WordDefEntry where
  name : List Char
  code : List Nat
deriving DecidableEq, Repr

/-- `ControlFrame` as the tagged union actually used per `ControlType`
(`jz_patch_addr`/`jmp_patch_addr`/`has_else` for IF,
`begin_addr`/`while_patch_addr`/`has_while` for BEGIN,
`do_addr`/`leave_patch_addrs` for DO). -/
inductive ControlFrame where
  | ifF (jzPatch : Nat) (jmpPatch : Nat) (hasElse : Bool)
  | beginF (beginAddr : Nat) (whilePatch : Nat) (hasWhile : Bool)
  | doF (doAddr : Nat) (leavePatches : List Nat)
deriving DecidableEq, Repr

/-- The local state of `compile_internal`'s token loop.  The control stack is
kept top-first (`control_stack[control_depth-1]` is the head). -/
structure St where
  bc : Buffer
  wordBc : Buffer
  inDef : Bool
  curName : List Char
  dict : List WordDefEntry
  ctrl : List ControlFrame
  oracle : List Bool
deriving DecidableEq, Repr

/-- The buffer `current_bc` points at (word stream in definition mode). -/
def St.cur (s : St) : Buffer := if s.inDef then s.wordBc else s.bc

def St.setCur (s : St) (b : Buffer) : St :=
  if s.inDef then { s with wordBc := b } else { s with bc := b }

def initSt (oracle : List Bool) : St :=
  ⟨emptyBuffer, emptyBuffer, false, [], [], [], oracle⟩

/-- Append one byte through `current_bc` (threading the allocation oracle). -/
def emitByte (s : St) (x : Nat) : Except FrontErr St :=
  match append_byte s.oracle s.cur x with
  | .error err => .error err
  | .ok (b, o1) => .ok { s.setCur b with oracle := o1 }

def emitOp (e : OpEnc) (s : St) (o : Op) : Except FrontErr St :=
  emitByte s (e o)

def emitBytes (s : St) (xs : List Nat) : Except FrontErr St :=
  match xs with
  | [] => .ok s
  | x :: rest => do emitBytes (← emitByte s x) rest

def emitOps (e : OpEnc) (s : St) (os : List Op) : Except FrontErr St :=
  emitBytes s (os.map e)

/-- `append_i16_le` through the current buffer. -/
def emitI16 (s : St) (v : Int) : Except FrontErr St := emitBytes s (le16 v)

/-- `append_i32_le` through the current buffer. -/
def emitI32 (s : St) (v : Int) : Except FrontErr St := emitBytes s (le32 v)

/-- `backpatch_i16_le` on the current buffer. -/
def patch16 (s : St) (pos : Nat) (v : Int) : St :=
  s.setCur ⟨backpatch_i16_le s.cur.data pos v, s.cur.cap⟩

/-- First (innermost) DO frame on the control stack, with its index. -/
def findDo : List ControlFrame → Option (Nat × Nat × List Nat)
  | [] => none
  | .doF a lp :: _ => some (0, a, lp)
  | _ :: r => (findDo r).map (fun p => (p.1 + 1, p.2.1, p.2.2))

/-- First dictionary entry whose name matches case-insensitively
(declaration order). -/
def dictFindIdx (dict : List WordDefEntry) (tok : List Char) : Option Nat :=
  dict.findIdx? (fun w => str_eq_ci tok w.name)

/-- Single-opcode operator table of part_001's dispatcher tail (word-like
names case-insensitive, symbols exact); `I` is `R@`. -/
def opLookup (t : List Char) : Option Op :=
  if str_eq_ci t "DUP".data then some .DUP
  else if str_eq_ci t "DROP".data then some .DROP
  else if str_eq_ci t "SWAP".data then some .SWAP
  else if str_eq_ci t "OVER".data then some .OVER
  else if str_eq_ci t ">R".data then some .TOR
  else if str_eq_ci t "R>".data then some .FROMR
  else if str_eq_ci t "R@".data then some .RFETCH
  else if str_eq_ci t "I".data then some .RFETCH
  else if t = "+".data then some .ADD
  else if t = "-".data then some .SUB
  else if t = "*".data then some .MUL
  else if t = "/".data then some .DIV
  else if str_eq_ci t "MOD".data then some .MOD
  else if t = "=".data || t = "==".data then some .EQ
  else if t = "<>".data || t = "!=".data then some .NE
  else if t = "<".data then some .LT
  else if t = "<=".data then some .LE
  else if t = ">".data then some .GT
  else if t = ">=".data then some .GE
  else if str_eq_ci t "AND".data then some .AND
  else if str_eq_ci t "OR".data then some .OR
  else if str_eq_ci t "XOR".data then some .XOR
  else if str_eq_ci t "INVERT".data then some .INVERT
  else if t = "@".data then some .LOAD
  else if t = "!".data then some .STORE
  else none

/-- The keywords handled before dictionary/integer/operator dispatch
(colon, semicolon and control flow; all via `str_eq_ci`). -/
def isKeyword (t : List Char) : Bool :=
  str_eq_ci t ":".data || str_eq_ci t ";".data ||
  str_eq_ci t "BEGIN".data || str_eq_ci t "DO".data ||
  str_eq_ci t "UNTIL".data || str_eq_ci t "WHILE".data ||
  str_eq_ci t "REPEAT".data || str_eq_ci t "AGAIN".data ||
  str_eq_ci t "LEAVE".data || str_eq_ci t "LOOP".data ||
  str_eq_ci t "+LOOP".data || str_eq_ci t "IF".data ||
  str_eq_ci t "ELSE".data || str_eq_ci t "THEN".data ||
  str_eq_ci t "EXIT".data

-- ---------------------------------------------------------------------------
-- One iteration of part_001's token loop.  `next?` is the following token
-- (`:` reads it as the definition name); the returned Bool reports whether it
-- was consumed.
-- ---------------------------------------------------------------------------

def step (e : OpEnc) (s : St) (tok : List Char) (next? : Option (List Char)) :
    Except FrontErr (St × Bool) :=
  if str_eq_ci tok ":".data then
    if s.inDef then .error .NestedColon
    else match next? with
    | none => .error .ColonWithoutName
    | some name =>
        if name.length = 0 ∨ 64 ≤ name.length then .error .ColonWithoutName
        else if s.dict.any (fun w => str_eq_ci w.name name) then
          .error .DuplicateWord
        else if 256 ≤ s.dict.length then .error .DictionaryFull
        else .ok ({ s with inDef := true, curName := name,
                           wordBc := emptyBuffer }, true)
  else if str_eq_ci tok ";".data then
    if ¬ s.inDef then .error .SemicolonWithoutColon
    else do
      let s1 ← emitOp e s .RET
      .ok ({ s1 with inDef := false, curName := [],
                     dict := s1.dict ++ [⟨s1.curName, s1.wordBc.data⟩],
                     wordBc := emptyBuffer }, false)
  else if str_eq_ci tok "BEGIN".data then
    if 32 ≤ s.ctrl.length then .error .ControlDepthExceeded
    else .ok ({ s with
                ctrl := .beginF s.cur.data.length 0 false :: s.ctrl }, false)
  else if str_eq_ci tok "DO".data then
    if 32 ≤ s.ctrl.length then .error .ControlDepthExceeded
    else do
      let s1 ← emitOps e s [.SWAP, .TOR, .TOR]
      .ok ({ s1 with ctrl := .doF s1.cur.data.length [] :: s1.ctrl }, false)
  else if str_eq_ci tok "UNTIL".data then
    match s.ctrl with
    | .beginF b _ hw :: cr =>
        if hw then .error .UntilAfterWhile
        else do
          let s1 ← emitOp e s .JZ
          let s2 ← emitI16 s1 ((b : Int) - ((s1.cur.data.length : Int) + 2))
          .ok ({ s2 with ctrl := cr }, false)
    | _ => .error .UntilWithoutBegin
  else if str_eq_ci tok "WHILE".data then
    match s.ctrl with
    | .beginF b _ hw :: cr =>
        if hw then .error .DuplicateWhile
        else do
          let s1 ← emitOp e s .JZ
          let patchPos := s1.cur.data.length
          let s2 ← emitI16 s1 0
          .ok ({ s2 with ctrl := .beginF b patchPos true :: cr }, false)
    | _ => .error .WhileWithoutBegin
  else if str_eq_ci tok "REPEAT".data then
    match s.ctrl with
    | .beginF b wp hw :: cr =>
        if ¬ hw then .error .RepeatWithoutWhile
        else do
          let s1 ← emitOp e s .JMP
          let s2 ← emitI16 s1 ((b : Int) - ((s1.cur.data.length : Int) + 2))
          let s3 := patch16 s2 wp
            ((s2.cur.data.length : Int) - ((wp : Int) + 2))
          .ok ({ s3 with ctrl := cr }, false)
    | _ => .error .RepeatWithoutBegin
  else if str_eq_ci tok "AGAIN".data then
    match s.ctrl with
    | .beginF b _ hw :: cr =>
        if hw then .error .AgainAfterWhile
        else do
          let s1 ← emitOp e s .JMP
          let s2 ← emitI16 s1 ((b : Int) - ((s1.cur.data.length : Int) + 2))
          .ok ({ s2 with ctrl := cr }, false)
    | _ => .error .AgainWithoutBegin
  else if str_eq_ci tok "LEAVE".data then
    match findDo s.ctrl with
    | none => .error .LeaveWithoutDo
    | some (i, a, lp) =>
        if 8 ≤ lp.length then .error .LeaveDepthExceeded
        else do
          let s1 ← emitOps e s [.FROMR, .FROMR, .DROP, .DROP, .JMP]
          let patchPos := s1.cur.data.length
          let s2 ← emitI16 s1 0
          .ok ({ s2 with
                 ctrl := s2.ctrl.set i (.doF a (lp ++ [patchPos])) }, false)
  else if str_eq_ci tok "LOOP".data then
    match s.ctrl with
    | .doF a lp :: cr => do
        let s1 ← emitOps e s [.FROMR, .LIT]
        let s2 ← emitI32 s1 1
        let s3 ← emitOps e s2 [.ADD, .FROMR, .OVER, .OVER, .LT, .JZ]
        let jzPos := s3.cur.data.length
        let s4 ← emitI16 s3 0
        let s5 ← emitOps e s4 [.SWAP, .TOR, .TOR, .JMP]
        let s6 ← emitI16 s5 ((a : Int) - ((s5.cur.data.length : Int) + 2))
        let s7 := patch16 s6 jzPos
          ((s6.cur.data.length : Int) - ((jzPos : Int) + 2))
        let s8 ← emitOps e s7 [.DROP, .DROP]
        let s9 := lp.foldl (fun t p =>
          patch16 t p ((t.cur.data.length : Int) - ((p : Int) + 2))) s8
        .ok ({ s9 with ctrl := cr }, false)
    | _ => .error .LoopWithoutDo
  else if str_eq_ci tok "+LOOP".data then
    match s.ctrl with
    | .doF a lp :: cr => do
        let s1 ← emitOps e s [.FROMR, .ADD, .FROMR, .OVER, .OVER, .LT, .JZ]
        let jzPos := s1.cur.data.length
        let s2 ← emitI16 s1 0
        let s3 ← emitOps e s2 [.SWAP, .TOR, .TOR, .JMP]
        let s4 ← emitI16 s3 ((a : Int) - ((s3.cur.data.length : Int) + 2))
        let s5 := patch16 s4 jzPos
          ((s4.cur.data.length : Int) - ((jzPos : Int) + 2))
        let s6 ← emitOps e s5 [.DROP, .DROP]
        let s7 := lp.foldl (fun t p =>
          patch16 t p ((t.cur.data.length : Int) - ((p : Int) + 2))) s6
        .ok ({ s7 with ctrl := cr }, false)
    | _ => .error .PLoopWithoutDo
  else if str_eq_ci tok "IF".data then
    if 32 ≤ s.ctrl.length then .error .ControlDepthExceeded
    else do
      let s1 ← emitOp e s .JZ
      let patchPos := s1.cur.data.length
      let s2 ← emitI16 s1 0
      .ok ({ s2 with ctrl := .ifF patchPos 0 false :: s2.ctrl }, false)
  else if str_eq_ci tok "ELSE".data then
    match s.ctrl with
    | .ifF jz _ he :: cr =>
        if he then .error .DuplicateElse
        else do
          let s1 ← emitOp e s .JMP
          let jmpPos := s1.cur.data.length
          let s2 ← emitI16 s1 0
          let s3 := patch16 s2 jz
            ((s2.cur.data.length : Int) - ((jz : Int) + 2))
          .ok ({ s3 with ctrl := .ifF jz jmpPos true :: cr }, false)
    | _ => .error .ElseWithoutIf
  else if str_eq_ci tok "THEN".data then
    match s.ctrl with
    | .ifF jz jm he :: cr =>
        let s1 :=
          if he then patch16 s jm ((s.cur.data.length : Int) - ((jm : Int) + 2))
          else patch16 s jz ((s.cur.data.length : Int) - ((jz : Int) + 2))
        .ok ({ s1 with ctrl := cr }, false)
    | _ => .error .ThenWithoutIf
  else if str_eq_ci tok "EXIT".data then do
    let s1 ← emitOp e s .RET
    .ok (s1, false)
  else
    match dictFindIdx s.dict tok with
    | some i => do
        let s1 ← emitOp e s .CALL
        let s2 ← emitI16 s1 (i : Int)
        .ok (s2, false)
    | none =>
        match try_parse_int tok with
        | some v => do
            let s1 ← emitOp e s .LIT
            let s2 ← emitI32 s1 v
            .ok (s2, false)
        | none =>
            if str_eq_ci tok "J".data then do
              let s1 ← emitOps e s
                [.FROMR, .FROMR, .FROMR, .DUP, .TOR, .TOR, .TOR]
              .ok (s1, false)
            else if str_eq_ci tok "K".data then do
              let s1 ← emitOps e s
                [.FROMR, .FROMR, .FROMR, .FROMR, .FROMR, .DUP,
                 .TOR, .TOR, .TOR, .TOR, .TOR]
              .ok (s1, false)
            else
              match opLookup tok with
              | some o => do
                  let s1 ← emitOp e s o
                  .ok (s1, false)
              | none => .error .UnknownToken

/-- The token loop of `compile_internal` (a consumed lookahead skips the
next token). -/
def processTokens (e : OpEnc) (s : St) :
    List (List Char) → Except FrontErr St
  | [] => .ok s
  | tok :: rest =>
      match step e s tok rest.head?, rest with
      | .error err, _ => .error err
      | .ok (s1, true), [] => .ok s1
      | .ok (s1, true), _ :: rest2 => processTokens e s1 rest2
      | .ok (s1, false), r => processTokens e s1 r

-- ---------------------------------------------------------------------------
-- The caller's handle (V4FrontBuf) and finalization
-- ---------------------------------------------------------------------------

/-- The caller-visible `V4FrontBuf`: the owning pointers are modelled by
null flags plus the logical contents. -/
structure Handle where
  dataNull : Bool
  size : Nat
  data : List Nat
  wordsNull : Bool
  wordCount : Nat
  words : List WordDefEntry
deriving DecidableEq, Repr

/-- The zero-initialized handle (`out_buf` right after entry). -/
def zeroHandle : Handle := ⟨true, 0, [], true, 0, []⟩

/-- Error picked for a leftover control frame at end of input. -/
def unclosedErr : ControlFrame → FrontErr
  | .ifF _ _ _ => .UnclosedIf
  | .doF _ _ => .UnclosedDo
  | .beginF _ _ _ => .UnclosedBegin

/-- Outcome of transferring `word_dict` into `out_buf->words`. -/
structure WTRes where
  err : Option FrontErr
  wordsNull : Bool
  words : List WordDefEntry
  wordCount : Nat
  oracle : List Bool
deriving DecidableEq, Repr

/-- `n` successive allocations (the per-word `strdup` calls); stops at the
first failure. -/
def acquireN : Nat → List Bool → Bool × List Bool
  | 0, o => (true, o)
  | n + 1, o =>
      match acquire o with
      | (true, o1) => acquireN n o1
      | (false, o1) => (false, o1)

/-- The word-list transfer of `compile_internal` (lines 1115-1150 of
part_001): one malloc for the array, then one strdup per name.  When the
array malloc fails `out_buf->words` stays null; when a strdup fails the
already-freed array pointer is left in `out_buf->words` (non-null), the
count still zero. -/
def transferWords (o : List Bool) (dict : List WordDefEntry) : WTRes :=
  if dict.length = 0 then ⟨none, true, [], 0, o⟩
  else
    match acquire o with
    | (false, o1) => ⟨some .OutOfMemory, true, [], 0, o1⟩
    | (true, o1) =>
        match acquireN dict.length o1 with
        | (false, o2) => ⟨some .OutOfMemory, false, [], 0, o2⟩
        | (true, o2) => ⟨none, false, dict, dict.length, o2⟩

/-- End-of-input handling of `compile_internal`: unclosed-construct checks,
word transfer, conditional trailing `RET` (skipped when the byte at offset
−3 of the main stream equals the `JMP` opcode), and the final stores into
`out_buf`.  Returns the error code (`none` = OK) and the state of the
caller's handle at return. -/
def finalize (e : OpEnc) (s : St) : Option FrontErr × Handle :=
  match s.ctrl with
  | f :: _ => (some (unclosedErr f), zeroHandle)
  | [] =>
    if s.inDef then (some .UnclosedColon, zeroHandle)
    else
      match transferWords s.oracle s.dict with
      | ⟨some err, wn, ws, wc, _⟩ =>
          (some err, ⟨true, 0, [], wn, wc, ws⟩)
      | ⟨none, wn, ws, wc, o2⟩ =>
          if 3 ≤ s.cur.data.length ∧
              s.cur.data.getD (s.cur.data.length - 3) 0 = e Op.JMP then
            (none, ⟨false, s.cur.data.length, s.cur.data, wn, wc, ws⟩)
          else
            match append_byte o2 s.cur (e Op.RET) with
            | .error err => (some err, ⟨true, 0, [], wn, wc, ws⟩)
            | .ok (bc2, _) =>
                (none, ⟨false, bc2.data.length, bc2.data, wn, wc, ws⟩)

/-- The NULL/empty-source early return of `compile_internal`: emit a lone
`RET` and hand it to the caller. -/
def emptyCase (e : OpEnc) (oracle : List Bool) : Option FrontErr × Handle :=
  match append_byte oracle emptyBuffer (e Op.RET) with
  | .error err => (some err, zeroHandle)
  | .ok (bc, _) => (none, ⟨false, bc.data.length, bc.data, true, 0, []⟩)

/-- `compile_internal`, parameterised over the tokenizer (the inline
whitespace splitter in part_001; a spec-modelled comment-aware splitter for
the revision missing from the sources).  `none` models a NULL `source`
pointer. -/
def compileWith (tknz : List Char → List (List Char)) (e : OpEnc)
    (oracle : List Bool) : Option (List Char) → Option FrontErr × Handle
  | none => emptyCase e oracle
  | some cs =>
      if cs = [] then emptyCase e oracle
      else
        match processTokens e (initSt oracle) (tknz cs) with
        | .error err => (some err, zeroHandle)
        | .ok s => finalize e s

/-- `compile_internal` of src/unnamed/part_001. -/
def compile_internal (e : OpEnc) (oracle : List Bool)
    (source : Option (List Char)) : Option FrontErr × Handle :=
  compileWith tokenize e oracle source

-- ---------------------------------------------------------------------------
-- Spec-modelled features (present in the repository only through its tests)
-- ---------------------------------------------------------------------------

/-- Modelled from the spec: the compiler revision implementing line comments
is missing from the sources (only tests/test_comments.cpp exercises it).
Per the spec, a `\` token starts a line comment terminated by LF or
end-of-input, and all comment bytes are discarded; tokens are otherwise
extracted exactly as in part_001. -/
def tokenizeLCAux : Nat → List Char → List (List Char)
  | 0, _ => []
  | fuel + 1, cs =>
      match cs.dropWhile isSpaceC with
      | [] => []
      | c :: rest =>
          let tok := ((c :: rest).takeWhile (fun d => ¬ isSpaceC d)).take 255
          let rem := (c :: rest).dropWhile (fun d => ¬ isSpaceC d)
          if tok = ['\\'] then
            tokenizeLCAux fuel (rem.dropWhile (fun d => d ≠ '\n'))
          else tok :: tokenizeLCAux fuel rem

def tokenizeLC (cs : List Char) : List (List Char) :=
  tokenizeLCAux (cs.length + 1) cs

/-- The compiler with the spec-modelled comment-aware tokenizer. -/
def compile_internal_lc (e : OpEnc) (oracle : List Bool)
    (source : Option (List Char)) : Option FrontErr × Handle :=
  compileWith tokenizeLC e oracle source

/-- Has this token just been dispatched as an integer literal (the condition
under which the spec's `CONSTANT` finds its preceding value)?  Mirrors the
part_001 dispatch: keywords and dictionary hits win before integer parsing. -/
def litDispatched (s : St) (tok : List Char) : Option Int :=
  if isKeyword tok then none
  else if (dictFindIdx s.dict tok).isSome then none
  else try_parse_int tok

/-- Modelled from the spec: `CONSTANT` handling is absent from the sources
(only tests/test_constant.cpp exercises it).  Per the spec, the token
preceding `CONSTANT` must be a parsed integer literal emitted as the last
instruction on the current stream (else `ConstantWithoutValue`); `CONSTANT`
consumes the following token as the entry name (else `ConstantWithoutName`),
rejects duplicates, and replaces the `LIT` emission by a dictionary entry
whose body is `LIT <value> RET`.  All other tokens behave as in part_001's
dispatcher. -/
def stepK (e : OpEnc) (s : St) (lastLit : Option Int) (tok : List Char)
    (next? : Option (List Char)) :
    Except FrontErr (St × Option Int × Bool) :=
  if str_eq_ci tok "CONSTANT".data then
    match lastLit with
    | none => .error .ConstantWithoutValue
    | some v =>
        match next? with
        | none => .error .ConstantWithoutName
        | some name =>
            if s.dict.any (fun w => str_eq_ci w.name name) then
              .error .DuplicateWord
            else if 256 ≤ s.dict.length then .error .DictionaryFull
            else
              let b := s.cur
              let s1 := s.setCur ⟨b.data.take (b.data.length - 5), b.cap⟩
              .ok ({ s1 with dict := s1.dict ++
                       [⟨name, [e Op.LIT] ++ le32 v ++ [e Op.RET]⟩] },
                   none, true)
  else
    match step e s tok next? with
    | .error err => .error err
    | .ok (s1, consumed) => .ok (s1, litDispatched s tok, consumed)

def processTokensK (e : OpEnc) (s : St) (lastLit : Option Int) :
    List (List Char) → Except FrontErr St
  | [] => .ok s
  | tok :: rest =>
      match stepK e s lastLit tok rest.head?, rest with
      | .error err, _ => .error err
      | .ok (s1, _, true), [] => .ok s1
      | .ok (s1, ll, true), _ :: rest2 => processTokensK e s1 ll rest2
      | .ok (s1, ll, false), r => processTokensK e s1 ll r

/-- The spec-modelled compiler extended with `CONSTANT`. -/
def compile_with_constant (e : OpEnc) (oracle : List Bool) :
    Option (List Char) → Option FrontErr × Handle
  | none => emptyCase e oracle
  | some cs =>
      if cs = [] then emptyCase e oracle
      else
        match processTokensK e (initSt oracle) none (tokenize cs) with
        | .error err => (some err, zeroHandle)
        | .ok s => finalize e s

-- ---------------------------------------------------------------------------
-- Linear instruction decoding (immediate sizes per the output encoding)
-- ---------------------------------------------------------------------------

def allOps : List Op :=
  [.LIT, .CALL, .RET, .JMP, .JZ,
   .ADD, .SUB, .MUL, .DIV, .MOD,
   .EQ, .NE, .LT, .LE, .GT, .GE,
   .AND, .OR, .XOR, .INVERT,
   .DUP, .DROP, .SWAP, .OVER,
   .TOR, .FROMR, .RFETCH,
   .LOAD, .STORE]

/-- Immediate-operand length in bytes for each opcode the frontend emits. -/
def immLen : Op → Nat
  | .LIT => 4
  | .CALL => 2
  | .JMP => 2
  | .JZ => 2
  | _ => 0

/-- Decode a byte stream into its instruction sequence: each opcode byte is
looked up through the encoding and its immediate bytes are skipped. -/
def decodeOps (e : OpEnc) : Nat → List Nat → Option (List Op)
  | _, [] => some []
  | 0, _ :: _ => none
  | fuel + 1, b :: rest =>
      match allOps.find? (fun o => e o = b) with
      | none => none
      | some o =>
          if immLen o ≤ rest.length then
            (decodeOps e fuel (rest.drop (immLen o))).map (o :: ·)
          else none


-- ---------------------------------------------------------------------------
-- Helper lemmas
-- ---------------------------------------------------------------------------

theorem enc_ne {e : OpEnc} (h : ValidEnc e) {a b : Op} (hab : a ≠ b) :
    e a ≠ e b := fun hEq => hab (h.1 hEq)

theorem enc_jmp_ne_zero {e : OpEnc} (h : ValidEnc e) : e Op.JMP ≠ 0 := by
  intro h0
  exact enc_ne h (show Op.JMP ≠ Op.LIT by decide) (h0.trans h.2.2.1.symm)

theorem acquireN_nil (n : Nat) : acquireN n [] = (true, []) := by
  induction n with
  | zero => rfl
  | succ n ih => simp [acquireN, acquire, ih]

/-- Shape of `finalize` on a success state with an exhausted-empty oracle
(allocation always succeeds), room left in the main buffer, and a byte at
offset −3 different from the `JMP` opcode: word transfer succeeds and the
trailing `RET` is appended. -/
theorem finalize_ok (e : OpEnc) (L : List Nat) (cap : Nat) (wb : Buffer)
    (d : List WordDefEntry) (o : List Bool) (wn : Bool) (wc : Nat)
    (ws : List WordDefEntry)
    (ht : transferWords o d = ⟨none, wn, ws, wc, []⟩)
    (hlt : L.length < cap)
    (hc : L.getD (L.length - 3) 0 ≠ e Op.JMP) :
    finalize e ⟨⟨L, cap⟩, wb, false, [], d, [], o⟩ =
      (none, ⟨false, L.length + 1, L ++ [e Op.RET], wn, wc, ws⟩) := by
  have h1 : finalize e ⟨⟨L, cap⟩, wb, false, [], d, [], o⟩ =
      (match transferWords o d with
       | ⟨some err, wn1, ws1, wc1, _⟩ => (some err, ⟨true, 0, [], wn1, wc1, ws1⟩)
       | ⟨none, wn1, ws1, wc1, o2⟩ =>
          if 3 ≤ L.length ∧ L.getD (L.length - 3) 0 = e Op.JMP then
            (none, ⟨false, L.length, L, wn1, wc1, ws1⟩)
          else
            match append_byte o2 ⟨L, cap⟩ (e Op.RET) with
            | .error err => (some err, ⟨true, 0, [], wn1, wc1, ws1⟩)
            | .ok (bc2, _) =>
                (none, ⟨false, bc2.data.length, bc2.data, wn1, wc1, ws1⟩)) :=
    rfl
  rw [h1]
  simp only [ht]
  rw [if_neg (fun hand => hc hand.2)]
  have h2 : append_byte [] ⟨L, cap⟩ (e Op.RET) =
      .ok (⟨L ++ [e Op.RET], cap⟩, []) := by
    unfold append_byte
    rw [if_neg (Nat.not_le.mpr hlt)]
  simp only [h2]
  simp

/-- Successful tokenisation hands the final state to `finalize`. -/
theorem compileWith_ok (tknz : List Char → List (List Char)) (e : OpEnc)
    (o : List Bool) (cs : List Char) (s1 : St) (hne : ¬ cs = [])
    (hp : processTokens e (initSt o) (tknz cs) = .ok s1) :
    compileWith tknz e o (some cs) = finalize e s1 := by
  simp only [compileWith]
  rw [if_neg hne, hp]

theorem getLast?_append_single {α : Type} (l : List α) (a : α) :
    (l ++ [a]).getLast? = some a :=
  List.getLast?_concat l

theorem append_byte_ok_data {o : List Bool} {b : Buffer} {x : Nat}
    {bc : Buffer} {o2 : List Bool}
    (hab : append_byte o b x = .ok (bc, o2)) : bc.data = b.data ++ [x] := by
  unfold append_byte at hab
  split at hab
  · split at hab
    · injection hab with h1
      injection h1 with h2 h3
      rw [← h2]
    · exact absurd hab (by simp)
  · injection hab with h1
    injection h1 with h2 h3
    rw [← h2]

/-- Every `OK` return of `finalize` ends the main stream with `RET`, unless
the byte at offset −3 equals the `JMP` opcode (in which case nothing was
appended). -/
theorem finalize_none {e : OpEnc} {s : St} {h : Handle}
    (hf : finalize e s = (none, h)) :
    h.data.getLast? = some (e Op.RET) ∨
      (3 ≤ h.data.length ∧ h.data.getD (h.data.length - 3) 0 = e Op.JMP) := by
  unfold finalize at hf
  split at hf
  · exact absurd hf (by simp)
  · split at hf
    · exact absurd hf (by simp)
    · split at hf
      · exact absurd hf (by simp)
      · split at hf
        · right
          injection hf with h1 h2
          rw [← h2]
          rename_i hcond
          exact hcond
        · split at hf
          · exact absurd hf (by simp)
          · left
            injection hf with h1 h2
            rw [← h2]
            rename_i bc2 o3 hab
            have hd := append_byte_ok_data hab
            simp only [hd]
            exact getLast?_append_single _ _

theorem emptyCase_none {e : OpEnc} {o : List Bool} {h : Handle}
    (hc : emptyCase e o = (none, h)) :
    h.data.getLast? = some (e Op.RET) := by
  unfold emptyCase at hc
  split at hc
  · exact absurd hc (by simp)
  · injection hc with h1 h2
    rw [← h2]
    rename_i bc o2 hab
    have hd := append_byte_ok_data hab
    simp only [hd]
    exact getLast?_append_single _ _

-- ---------------------------------------------------------------------------
-- C1
-- ---------------------------------------------------------------------------

/-- C1: compiling `"3 IF 1 ELSE 2 THEN"` succeeds and produces exactly the
main byte stream `LIT 3, JZ off1, LIT 1, JMP off2, LIT 2, RET`, where the
i16-LE offsets (measured from the byte after the 2-byte offset field) are
`off1 = 8` stored in the `JZ` and `off2 = 5` stored in the `JMP`. -/
theorem C1_if_else_then_bytes (e : OpEnc) (h : ValidEnc e) :
    compile_internal e [] (some "3 IF 1 ELSE 2 THEN".data) =
      (none, ⟨false, 22,
        [e Op.LIT, 3, 0, 0, 0, e Op.JZ, 8, 0, e Op.LIT, 1, 0, 0, 0,
         e Op.JMP, 5, 0, e Op.LIT, 2, 0, 0, 0, e Op.RET], true, 0, []⟩) := by
  have st1 : step e ⟨⟨[], 0⟩, ⟨[], 0⟩, false, [], [], [], []⟩ ['3'] (some ['I', 'F']) = .ok (⟨⟨[e Op.LIT, 3, 0, 0, 0], 64⟩, ⟨[], 0⟩, false, [], [], [], []⟩, false) := by with_unfolding_all rfl
  have q1 := processTokens.eq_5 e ⟨⟨[], 0⟩, ⟨[], 0⟩, false, [], [], [], []⟩ ['3'] [['I', 'F'], ['1'], ['E', 'L', 'S', 'E'], ['2'], ['T', 'H', 'E', 'N']] ⟨⟨[e Op.LIT, 3, 0, 0, 0], 64⟩, ⟨[], 0⟩, false, [], [], [], []⟩ st1
  have st2 : step e ⟨⟨[e Op.LIT, 3, 0, 0, 0], 64⟩, ⟨[], 0⟩, false, [], [], [], []⟩ ['I', 'F'] (some ['1']) = .ok (⟨⟨[e Op.LIT, 3, 0, 0, 0, e Op.JZ, 0, 0], 64⟩, ⟨[], 0⟩, false, [], [], [.ifF 6 0 false], []⟩, false) := by with_unfolding_all rfl
  have q2 := processTokens.eq_5 e ⟨⟨[e Op.LIT, 3, 0, 0, 0], 64⟩, ⟨[], 0⟩, false, [], [], [], []⟩ ['I', 'F'] [['1'], ['E', 'L', 'S', 'E'], ['2'], ['T', 'H', 'E', 'N']] ⟨⟨[e Op.LIT, 3, 0, 0, 0, e Op.JZ, 0, 0], 64⟩, ⟨[], 0⟩, false, [], [], [.ifF 6 0 false], []⟩ st2
  have st3 : step e ⟨⟨[e Op.LIT, 3, 0, 0, 0, e Op.JZ, 0, 0], 64⟩, ⟨[], 0⟩, false, [], [], [.ifF 6 0 false], []⟩ ['1'] (some ['E', 'L', 'S', 'E']) = .ok (⟨⟨[e Op.LIT, 3, 0, 0, 0, e Op.JZ, 0, 0, e Op.LIT, 1, 0, 0, 0], 64⟩, ⟨[], 0⟩, false, [], [], [.ifF 6 0 false], []⟩, false) := by with_unfolding_all rfl
  have q3 := processTokens.eq_5 e ⟨⟨[e Op.LIT, 3, 0, 0, 0, e Op.JZ, 0, 0], 64⟩, ⟨[], 0⟩, false, [], [], [.ifF 6 0 false], []⟩ ['1'] [['E', 'L', 'S', 'E'], ['2'], ['T', 'H', 'E', 'N']] ⟨⟨[e Op.LIT, 3, 0, 0, 0, e Op.JZ, 0, 0, e Op.LIT, 1, 0, 0, 0], 64⟩, ⟨[], 0⟩, false, [], [], [.ifF 6 0 false], []⟩ st3
  have st4 : step e ⟨⟨[e Op.LIT, 3, 0, 0, 0, e Op.JZ, 0, 0, e Op.LIT, 1, 0, 0, 0], 64⟩, ⟨[], 0⟩, false, [], [], [.ifF 6 0 false], []⟩ ['E', 'L', 'S', 'E'] (some ['2']) = .ok (⟨⟨[e Op.LIT, 3, 0, 0, 0, e Op.JZ, 8, 0, e Op.LIT, 1, 0, 0, 0, e Op.JMP, 0, 0], 64⟩, ⟨[], 0⟩, false, [], [], [.ifF 6 14 true], []⟩, false) := by with_unfolding_all rfl
  have q4 := processTokens.eq_5 e ⟨⟨[e Op.LIT, 3, 0, 0, 0, e Op.JZ, 0, 0, e Op.LIT, 1, 0, 0, 0], 64⟩, ⟨[], 0⟩, false, [], [], [.ifF 6 0 false], []⟩ ['E', 'L', 'S', 'E'] [['2'], ['T', 'H', 'E', 'N']] ⟨⟨[e Op.LIT, 3, 0, 0, 0, e Op.JZ, 8, 0, e Op.LIT, 1, 0, 0, 0, e Op.JMP, 0, 0], 64⟩, ⟨[], 0⟩, false, [], [], [.ifF 6 14 true], []⟩ st4
  have st5 : step e ⟨⟨[e Op.LIT, 3, 0, 0, 0, e Op.JZ, 8, 0, e Op.LIT, 1, 0, 0, 0, e Op.JMP, 0, 0], 64⟩, ⟨[], 0⟩, false, [], [], [.ifF 6 14 true], []⟩ ['2'] (some ['T', 'H', 'E', 'N']) = .ok (⟨⟨[e Op.LIT, 3, 0, 0, 0, e Op.JZ, 8, 0, e Op.LIT, 1, 0, 0, 0, e Op.JMP, 0, 0, e Op.LIT, 2, 0, 0, 0], 64⟩, ⟨[], 0⟩, false, [], [], [.ifF 6 14 true], []⟩, false) := by with_unfolding_all rfl
  have q5 := processTokens.eq_5 e ⟨⟨[e Op.LIT, 3, 0, 0, 0, e Op.JZ, 8, 0, e Op.LIT, 1, 0, 0, 0, e Op.JMP, 0, 0], 64⟩, ⟨[], 0⟩, false, [], [], [.ifF 6 14 true], []⟩ ['2'] [['T', 'H', 'E', 'N']] ⟨⟨[e Op.LIT, 3, 0, 0, 0, e Op.JZ, 8, 0, e Op.LIT, 1, 0, 0, 0, e Op.JMP, 0, 0, e Op.LIT, 2, 0, 0, 0], 64⟩, ⟨[], 0⟩, false, [], [], [.ifF 6 14 true], []⟩ st5
  have st6 : step e ⟨⟨[e Op.LIT, 3, 0, 0, 0, e Op.JZ, 8, 0, e Op.LIT, 1, 0, 0, 0, e Op.JMP, 0, 0, e Op.LIT, 2, 0, 0, 0], 64⟩, ⟨[], 0⟩, false, [], [], [.ifF 6 14 true], []⟩ ['T', 'H', 'E', 'N'] none = .ok (⟨⟨[e Op.LIT, 3, 0, 0, 0, e Op.JZ, 8, 0, e Op.LIT, 1, 0, 0, 0, e Op.JMP, 5, 0, e Op.LIT, 2, 0, 0, 0], 64⟩, ⟨[], 0⟩, false, [], [], [], []⟩, false) := by with_unfolding_all rfl
  have q6 := processTokens.eq_5 e ⟨⟨[e Op.LIT, 3, 0, 0, 0, e Op.JZ, 8, 0, e Op.LIT, 1, 0, 0, 0, e Op.JMP, 0, 0, e Op.LIT, 2, 0, 0, 0], 64⟩, ⟨[], 0⟩, false, [], [], [.ifF 6 14 true], []⟩ ['T', 'H', 'E', 'N'] [] ⟨⟨[e Op.LIT, 3, 0, 0, 0, e Op.JZ, 8, 0, e Op.LIT, 1, 0, 0, 0, e Op.JMP, 5, 0, e Op.LIT, 2, 0, 0, 0], 64⟩, ⟨[], 0⟩, false, [], [], [], []⟩ st6
  have qz := processTokens.eq_1 e ⟨⟨[e Op.LIT, 3, 0, 0, 0, e Op.JZ, 8, 0, e Op.LIT, 1, 0, 0, 0, e Op.JMP, 5, 0, e Op.LIT, 2, 0, 0, 0], 64⟩, ⟨[], 0⟩, false, [], [], [], []⟩
  have q0 : processTokens e (initSt []) (tokenize "3 IF 1 ELSE 2 THEN".data) = processTokens e ⟨⟨[], 0⟩, ⟨[], 0⟩, false, [], [], [], []⟩ [['3'], ['I', 'F'], ['1'], ['E', 'L', 'S', 'E'], ['2'], ['T', 'H', 'E', 'N']] := by with_unfolding_all rfl
  have hp := (q0.trans (q1.trans (q2.trans (q3.trans (q4.trans (q5.trans (q6))))))).trans qz
  have key := compileWith_ok tokenize e [] "3 IF 1 ELSE 2 THEN".data
    ⟨⟨[e Op.LIT, 3, 0, 0, 0, e Op.JZ, 8, 0, e Op.LIT, 1, 0, 0, 0, e Op.JMP, 5, 0, e Op.LIT, 2, 0, 0, 0], 64⟩, ⟨[], 0⟩, false, [], [], [], []⟩
    (by decide) hp
  rw [show compile_internal e [] (some "3 IF 1 ELSE 2 THEN".data) =
    compileWith tokenize e [] (some "3 IF 1 ELSE 2 THEN".data) from rfl, key]
  have hfin := finalize_ok e
    [e Op.LIT, 3, 0, 0, 0, e Op.JZ, 8, 0, e Op.LIT, 1, 0, 0, 0,
     e Op.JMP, 5, 0, e Op.LIT, 2, 0, 0, 0] 64 ⟨[], 0⟩ [] [] true 0 []
    rfl (by simp) (fun h0 => enc_jmp_ne_zero h h0.symm)
  rw [hfin]
  with_unfolding_all rfl

/-- Witness for C1 at the concrete sample encoding. -/
theorem C1_if_else_then_bytes_witness :
    compile_internal sampleEnc [] (some "3 IF 1 ELSE 2 THEN".data) =
      (none, ⟨false, 22,
        [sampleEnc Op.LIT, 3, 0, 0, 0, sampleEnc Op.JZ, 8, 0,
         sampleEnc Op.LIT, 1, 0, 0, 0, sampleEnc Op.JMP, 5, 0,
         sampleEnc Op.LIT, 2, 0, 0, 0, sampleEnc Op.RET], true, 0, []⟩) :=
  C1_if_else_then_bytes sampleEnc (by decide)

-- ---------------------------------------------------------------------------
-- C2
-- ---------------------------------------------------------------------------

/-- C2: compiling `": DOUBLE DUP + ; 5 DOUBLE"` succeeds with exactly one
word entry named `DOUBLE` whose code is `DUP, ADD, RET`, and a 9-byte main
stream `LIT 5, CALL idx=0 (u16-LE), RET`. -/
theorem C2_colon_definition_bytes (e : OpEnc) (h : ValidEnc e) :
    compile_internal e [] (some ": DOUBLE DUP + ; 5 DOUBLE".data) =
      (none, ⟨false, 9,
        [e Op.LIT, 5, 0, 0, 0, e Op.CALL, 0, 0, e Op.RET], false, 1,
        [⟨['D', 'O', 'U', 'B', 'L', 'E'],
          [e Op.DUP, e Op.ADD, e Op.RET]⟩]⟩) := by
  have st1 : step e ⟨⟨[], 0⟩, ⟨[], 0⟩, false, [], [], [], []⟩ [':'] (some ['D', 'O', 'U', 'B', 'L', 'E']) = .ok (⟨⟨[], 0⟩, ⟨[], 0⟩, true, ['D', 'O', 'U', 'B', 'L', 'E'], [], [], []⟩, true) := by with_unfolding_all rfl
  have q1 := processTokens.eq_4 e ⟨⟨[], 0⟩, ⟨[], 0⟩, false, [], [], [], []⟩ [':'] ⟨⟨[], 0⟩, ⟨[], 0⟩, true, ['D', 'O', 'U', 'B', 'L', 'E'], [], [], []⟩ ['D', 'O', 'U', 'B', 'L', 'E'] [['D', 'U', 'P'], ['+'], [';'], ['5'], ['D', 'O', 'U', 'B', 'L', 'E']] st1
  have st2 : step e ⟨⟨[], 0⟩, ⟨[], 0⟩, true, ['D', 'O', 'U', 'B', 'L', 'E'], [], [], []⟩ ['D', 'U', 'P'] (some ['+']) = .ok (⟨⟨[], 0⟩, ⟨[e Op.DUP], 64⟩, true, ['D', 'O', 'U', 'B', 'L', 'E'], [], [], []⟩, false) := by with_unfolding_all rfl
  have q2 := processTokens.eq_5 e ⟨⟨[], 0⟩, ⟨[], 0⟩, true, ['D', 'O', 'U', 'B', 'L', 'E'], [], [], []⟩ ['D', 'U', 'P'] [['+'], [';'], ['5'], ['D', 'O', 'U', 'B', 'L', 'E']] ⟨⟨[], 0⟩, ⟨[e Op.DUP], 64⟩, true, ['D', 'O', 'U', 'B', 'L', 'E'], [], [], []⟩ st2
  have st3 : step e ⟨⟨[], 0⟩, ⟨[e Op.DUP], 64⟩, true, ['D', 'O', 'U', 'B', 'L', 'E'], [], [], []⟩ ['+'] (some [';']) = .ok (⟨⟨[], 0⟩, ⟨[e Op.DUP, e Op.ADD], 64⟩, true, ['D', 'O', 'U', 'B', 'L', 'E'], [], [], []⟩, false) := by with_unfolding_all rfl
  have q3 := processTokens.eq_5 e ⟨⟨[], 0⟩, ⟨[e Op.DUP], 64⟩, true, ['D', 'O', 'U', 'B', 'L', 'E'], [], [], []⟩ ['+'] [[';'], ['5'], ['D', 'O', 'U', 'B', 'L', 'E']] ⟨⟨[], 0⟩, ⟨[e Op.DUP, e Op.ADD], 64⟩, true, ['D', 'O', 'U', 'B', 'L', 'E'], [], [], []⟩ st3
  have st4 : step e ⟨⟨[], 0⟩, ⟨[e Op.DUP, e Op.ADD], 64⟩, true, ['D', 'O', 'U', 'B', 'L', 'E'], [], [], []⟩ [';'] (some ['5']) = .ok (⟨⟨[], 0⟩, ⟨[], 0⟩, false, [], [⟨['D', 'O', 'U', 'B', 'L', 'E'], [e Op.DUP, e Op.ADD, e Op.RET]⟩], [], []⟩, false) := by with_unfolding_all rfl
  have q4 := processTokens.eq_5 e ⟨⟨[], 0⟩, ⟨[e Op.DUP, e Op.ADD], 64⟩, true, ['D', 'O', 'U', 'B', 'L', 'E'], [], [], []⟩ [';'] [['5'], ['D', 'O', 'U', 'B', 'L', 'E']] ⟨⟨[], 0⟩, ⟨[], 0⟩, false, [], [⟨['D', 'O', 'U', 'B', 'L', 'E'], [e Op.DUP, e Op.ADD, e Op.RET]⟩], [], []⟩ st4
  have st5 : step e ⟨⟨[], 0⟩, ⟨[], 0⟩, false, [], [⟨['D', 'O', 'U', 'B', 'L', 'E'], [e Op.DUP, e Op.ADD, e Op.RET]⟩], [], []⟩ ['5'] (some ['D', 'O', 'U', 'B', 'L', 'E']) = .ok (⟨⟨[e Op.LIT, 5, 0, 0, 0], 64⟩, ⟨[], 0⟩, false, [], [⟨['D', 'O', 'U', 'B', 'L', 'E'], [e Op.DUP, e Op.ADD, e Op.RET]⟩], [], []⟩, false) := by with_unfolding_all rfl
  have q5 := processTokens.eq_5 e ⟨⟨[], 0⟩, ⟨[], 0⟩, false, [], [⟨['D', 'O', 'U', 'B', 'L', 'E'], [e Op.DUP, e Op.ADD, e Op.RET]⟩], [], []⟩ ['5'] [['D', 'O', 'U', 'B', 'L', 'E']] ⟨⟨[e Op.LIT, 5, 0, 0, 0], 64⟩, ⟨[], 0⟩, false, [], [⟨['D', 'O', 'U', 'B', 'L', 'E'], [e Op.DUP, e Op.ADD, e Op.RET]⟩], [], []⟩ st5
  have st6 : step e ⟨⟨[e Op.LIT, 5, 0, 0, 0], 64⟩, ⟨[], 0⟩, false, [], [⟨['D', 'O', 'U', 'B', 'L', 'E'], [e Op.DUP, e Op.ADD, e Op.RET]⟩], [], []⟩ ['D', 'O', 'U', 'B', 'L', 'E'] none = .ok (⟨⟨[e Op.LIT, 5, 0, 0, 0, e Op.CALL, 0, 0], 64⟩, ⟨[], 0⟩, false, [], [⟨['D', 'O', 'U', 'B', 'L', 'E'], [e Op.DUP, e Op.ADD, e Op.RET]⟩], [], []⟩, false) := by with_unfolding_all rfl
  have q6 := processTokens.eq_5 e ⟨⟨[e Op.LIT, 5, 0, 0, 0], 64⟩, ⟨[], 0⟩, false, [], [⟨['D', 'O', 'U', 'B', 'L', 'E'], [e Op.DUP, e Op.ADD, e Op.RET]⟩], [], []⟩ ['D', 'O', 'U', 'B', 'L', 'E'] [] ⟨⟨[e Op.LIT, 5, 0, 0, 0, e Op.CALL, 0, 0], 64⟩, ⟨[], 0⟩, false, [], [⟨['D', 'O', 'U', 'B', 'L', 'E'], [e Op.DUP, e Op.ADD, e Op.RET]⟩], [], []⟩ st6
  have qz := processTokens.eq_1 e ⟨⟨[e Op.LIT, 5, 0, 0, 0, e Op.CALL, 0, 0], 64⟩, ⟨[], 0⟩, false, [], [⟨['D', 'O', 'U', 'B', 'L', 'E'], [e Op.DUP, e Op.ADD, e Op.RET]⟩], [], []⟩
  have q0 : processTokens e (initSt []) (tokenize ": DOUBLE DUP + ; 5 DOUBLE".data) = processTokens e ⟨⟨[], 0⟩, ⟨[], 0⟩, false, [], [], [], []⟩ [[':'], ['D', 'O', 'U', 'B', 'L', 'E'], ['D', 'U', 'P'], ['+'], [';'], ['5'], ['D', 'O', 'U', 'B', 'L', 'E']] := by with_unfolding_all rfl
  have hp := (q0.trans (q1.trans (q2.trans (q3.trans (q4.trans (q5.trans (q6))))))).trans qz
  have key := compileWith_ok tokenize e [] ": DOUBLE DUP + ; 5 DOUBLE".data
    ⟨⟨[e Op.LIT, 5, 0, 0, 0, e Op.CALL, 0, 0], 64⟩, ⟨[], 0⟩, false, [], [⟨['D', 'O', 'U', 'B', 'L', 'E'], [e Op.DUP, e Op.ADD, e Op.RET]⟩], [], []⟩
    (by decide) hp
  rw [show compile_internal e [] (some ": DOUBLE DUP + ; 5 DOUBLE".data) =
    compileWith tokenize e [] (some ": DOUBLE DUP + ; 5 DOUBLE".data) from rfl,
    key]
  have hfin := finalize_ok e [e Op.LIT, 5, 0, 0, 0, e Op.CALL, 0, 0] 64 ⟨[], 0⟩
    [⟨['D', 'O', 'U', 'B', 'L', 'E'], [e Op.DUP, e Op.ADD, e Op.RET]⟩] []
    false 1 [⟨['D', 'O', 'U', 'B', 'L', 'E'], [e Op.DUP, e Op.ADD, e Op.RET]⟩]
    (by with_unfolding_all rfl) (by simp)
    (fun h0 => enc_ne h (show Op.CALL ≠ Op.JMP by decide) h0)
  rw [hfin]
  with_unfolding_all rfl

/-- Witness for C2 at the concrete sample encoding. -/
theorem C2_colon_definition_bytes_witness :
    compile_internal sampleEnc [] (some ": DOUBLE DUP + ; 5 DOUBLE".data) =
      (none, ⟨false, 9,
        [sampleEnc Op.LIT, 5, 0, 0, 0, sampleEnc Op.CALL, 0, 0,
         sampleEnc Op.RET], false, 1,
        [⟨['D', 'O', 'U', 'B', 'L', 'E'],
          [sampleEnc Op.DUP, sampleEnc Op.ADD, sampleEnc Op.RET]⟩]⟩) :=
  C2_colon_definition_bytes sampleEnc (by decide)


-- ---------------------------------------------------------------------------
-- C3
-- ---------------------------------------------------------------------------

/-- C3 counterexample: the trailing-`RET` suppression inspects the raw byte
at offset −3, which can be an immediate byte.  Compiling the single literal
`"16640"` (= `0x4100`, whose middle immediate byte equals the sample `JMP`
opcode value 65) succeeds, yet the 5-byte main stream is the single
instruction `LIT 16640`: its final byte (0) is neither the `RET` opcode (81)
nor part of any `JMP` instruction, refuting the claim as stated. -/
theorem C3_counterexample :
    compile_internal sampleEnc [] (some "16640".data) =
      (none, ⟨false, 5, [0, 0, 65, 0, 0], true, 0, []⟩) ∧
    decodeOps sampleEnc 5 [0, 0, 65, 0, 0] = some [Op.LIT] ∧
    ([0, 0, 65, 0, 0] : List Nat).getLast? = some 0 ∧
    sampleEnc Op.RET = 81 ∧ sampleEnc Op.JMP = 65 ∧ (0 : Nat) ≠ 81 := by
  refine ⟨by with_unfolding_all rfl, by decide, by decide, by decide,
    by decide, by decide⟩

/-- C3 amended: for every successful compilation the final byte of the main
stream is the `RET` opcode, unless the byte at offset −3 of the
pre-finalization stream equals the `JMP` opcode byte (which happens after a
trailing `AGAIN`/`REPEAT`, but also when an immediate byte coincides with
that value), in which case nothing is appended. -/
theorem C3_amended_ret_unless_jmp_byte (e : OpEnc) (oracle : List Bool)
    (src : Option (List Char)) (h : Handle)
    (hc : compile_internal e oracle src = (none, h)) :
    h.data.getLast? = some (e Op.RET) ∨
      (3 ≤ h.data.length ∧ h.data.getD (h.data.length - 3) 0 = e Op.JMP) := by
  unfold compile_internal at hc
  cases src with
  | none => exact Or.inl (emptyCase_none hc)
  | some cs =>
      simp only [compileWith] at hc
      split at hc
      · exact Or.inl (emptyCase_none hc)
      · split at hc
        · exact absurd hc (by simp)
        · exact finalize_none hc

/-- Witness for the amended C3 at the concrete input `"5"`. -/
theorem C3_amended_ret_unless_jmp_byte_witness :
    ([0, 5, 0, 0, 0, 81] : List Nat).getLast? = some (sampleEnc Op.RET) ∨
      (3 ≤ ([0, 5, 0, 0, 0, 81] : List Nat).length ∧
        ([0, 5, 0, 0, 0, 81] : List Nat).getD
          (([0, 5, 0, 0, 0, 81] : List Nat).length - 3) 0 =
          sampleEnc Op.JMP) :=
  C3_amended_ret_unless_jmp_byte sampleEnc [] (some "5".data)
    ⟨false, 6, [0, 5, 0, 0, 0, 81], true, 0, []⟩ (by with_unfolding_all rfl)

-- ---------------------------------------------------------------------------
-- C4
-- ---------------------------------------------------------------------------

/-- C4 counterexample: compiling the out-of-int32-range token
`"4294967296"` does not fail at all, let alone with `InvalidInteger`:
`try_parse_int` ignores the range and the value is truncated to its low 32
bits, so compilation succeeds with `LIT 0, RET`. -/
theorem C4_counterexample :
    compile_internal sampleEnc [] (some "4294967296".data) =
      (none, ⟨false, 6, [0, 0, 0, 0, 0, 81], true, 0, []⟩) ∧
    (compile_internal sampleEnc [] (some "4294967296".data)).1 ≠
      some FrontErr.InvalidInteger := by
  refine ⟨by with_unfolding_all rfl, ?_⟩
  rw [show compile_internal sampleEnc [] (some "4294967296".data) =
    (none, ⟨false, 6, [0, 0, 0, 0, 0, 81], true, 0, []⟩) from
    by with_unfolding_all rfl]
  simp

/-- C4 amended: a token that parses syntactically as an integer but exceeds
the signed 32-bit range is not rejected: `compile_internal` (part_001) keeps
the clamped `long` from `strtol` (`try_parse_int` never checks `errno`) and
emits `LIT` of the value truncated to 32 bits, so `"4294967296"` compiles
successfully to `LIT 0, RET`; the Tier-0 `parse_int32`
(front_compile.cpp) rejects such a token, which there falls through to
`UnknownToken` — neither path produces `InvalidInteger`. -/
theorem C4_amended_overflow_truncated (e : OpEnc) (h : ValidEnc e) :
    compile_internal e [] (some "4294967296".data) =
      (none, ⟨false, 6, [e Op.LIT, 0, 0, 0, 0, e Op.RET], true, 0, []⟩) ∧
    try_parse_int "4294967296".data = some 4294967296 ∧
    parse_int32 "4294967296".data = none := by
  refine ⟨?_, by decide, by decide⟩
  have st1 : step e ⟨⟨[], 0⟩, ⟨[], 0⟩, false, [], [], [], []⟩ ['4', '2', '9', '4', '9', '6', '7', '2', '9', '6'] none = .ok (⟨⟨[e Op.LIT, 0, 0, 0, 0], 64⟩, ⟨[], 0⟩, false, [], [], [], []⟩, false) := by with_unfolding_all rfl
  have q1 := processTokens.eq_5 e ⟨⟨[], 0⟩, ⟨[], 0⟩, false, [], [], [], []⟩ ['4', '2', '9', '4', '9', '6', '7', '2', '9', '6'] [] ⟨⟨[e Op.LIT, 0, 0, 0, 0], 64⟩, ⟨[], 0⟩, false, [], [], [], []⟩ st1
  have qz := processTokens.eq_1 e ⟨⟨[e Op.LIT, 0, 0, 0, 0], 64⟩, ⟨[], 0⟩, false, [], [], [], []⟩
  have q0 : processTokens e (initSt []) (tokenize "4294967296".data) = processTokens e ⟨⟨[], 0⟩, ⟨[], 0⟩, false, [], [], [], []⟩ [['4', '2', '9', '4', '9', '6', '7', '2', '9', '6']] := by with_unfolding_all rfl
  have hp := (q0.trans (q1)).trans qz
  have key := compileWith_ok tokenize e [] "4294967296".data
    ⟨⟨[e Op.LIT, 0, 0, 0, 0], 64⟩, ⟨[], 0⟩, false, [], [], [], []⟩
    (by decide) hp
  rw [show compile_internal e [] (some "4294967296".data) =
    compileWith tokenize e [] (some "4294967296".data) from rfl, key]
  have hfin := finalize_ok e [e Op.LIT, 0, 0, 0, 0] 64 ⟨[], 0⟩ [] [] true 0 []
    rfl (by simp) (fun h0 => enc_jmp_ne_zero h h0.symm)
  rw [hfin]
  with_unfolding_all rfl

/-- Witness for the amended C4 at the concrete sample encoding. -/
theorem C4_amended_overflow_truncated_witness :
    compile_internal sampleEnc [] (some "4294967296".data) =
      (none, ⟨false, 6, [sampleEnc Op.LIT, 0, 0, 0, 0, sampleEnc Op.RET],
        true, 0, []⟩) ∧
    try_parse_int "4294967296".data = some 4294967296 ∧
    parse_int32 "4294967296".data = none :=
  C4_amended_overflow_truncated sampleEnc (by decide)


-- ---------------------------------------------------------------------------
-- C5 (spec-modelled: line comments)
-- ---------------------------------------------------------------------------

/-- C5 (spec-modelled): with the comment-aware tokenizer, a `\\` token
starts a line comment terminated by LF or end-of-input whose bytes are
discarded, so `"10 20 + \\ this is a comment"` compiles successfully to the
same bytecode as `"10 20 +"`: `LIT 10, LIT 20, ADD, RET`. -/
theorem C5_line_comment_discarded (e : OpEnc) (h : ValidEnc e) :
    compile_internal_lc e [] (some "10 20 + \\ this is a comment".data) =
      (none, ⟨false, 12,
        [e Op.LIT, 10, 0, 0, 0, e Op.LIT, 20, 0, 0, 0, e Op.ADD, e Op.RET],
        true, 0, []⟩) ∧
    compile_internal_lc e [] (some "10 20 + \\ this is a comment".data) =
      compile_internal_lc e [] (some "10 20 +".data) := by
  have st1 : step e ⟨⟨[], 0⟩, ⟨[], 0⟩, false, [], [], [], []⟩ ['1', '0'] (some ['2', '0']) = .ok (⟨⟨[e Op.LIT, 10, 0, 0, 0], 64⟩, ⟨[], 0⟩, false, [], [], [], []⟩, false) := by with_unfolding_all rfl
  have q1 := processTokens.eq_5 e ⟨⟨[], 0⟩, ⟨[], 0⟩, false, [], [], [], []⟩ ['1', '0'] [['2', '0'], ['+']] ⟨⟨[e Op.LIT, 10, 0, 0, 0], 64⟩, ⟨[], 0⟩, false, [], [], [], []⟩ st1
  have st2 : step e ⟨⟨[e Op.LIT, 10, 0, 0, 0], 64⟩, ⟨[], 0⟩, false, [], [], [], []⟩ ['2', '0'] (some ['+']) = .ok (⟨⟨[e Op.LIT, 10, 0, 0, 0, e Op.LIT, 20, 0, 0, 0], 64⟩, ⟨[], 0⟩, false, [], [], [], []⟩, false) := by with_unfolding_all rfl
  have q2 := processTokens.eq_5 e ⟨⟨[e Op.LIT, 10, 0, 0, 0], 64⟩, ⟨[], 0⟩, false, [], [], [], []⟩ ['2', '0'] [['+']] ⟨⟨[e Op.LIT, 10, 0, 0, 0, e Op.LIT, 20, 0, 0, 0], 64⟩, ⟨[], 0⟩, false, [], [], [], []⟩ st2
  have st3 : step e ⟨⟨[e Op.LIT, 10, 0, 0, 0, e Op.LIT, 20, 0, 0, 0], 64⟩, ⟨[], 0⟩, false, [], [], [], []⟩ ['+'] none = .ok (⟨⟨[e Op.LIT, 10, 0, 0, 0, e Op.LIT, 20, 0, 0, 0, e Op.ADD], 64⟩, ⟨[], 0⟩, false, [], [], [], []⟩, false) := by with_unfolding_all rfl
  have q3 := processTokens.eq_5 e ⟨⟨[e Op.LIT, 10, 0, 0, 0, e Op.LIT, 20, 0, 0, 0], 64⟩, ⟨[], 0⟩, false, [], [], [], []⟩ ['+'] [] ⟨⟨[e Op.LIT, 10, 0, 0, 0, e Op.LIT, 20, 0, 0, 0, e Op.ADD], 64⟩, ⟨[], 0⟩, false, [], [], [], []⟩ st3
  have qz := processTokens.eq_1 e ⟨⟨[e Op.LIT, 10, 0, 0, 0, e Op.LIT, 20, 0, 0, 0, e Op.ADD], 64⟩, ⟨[], 0⟩, false, [], [], [], []⟩
  have q0a : processTokens e (initSt [])
      (tokenizeLC "10 20 + \\ this is a comment".data) =
      processTokens e ⟨⟨[], 0⟩, ⟨[], 0⟩, false, [], [], [], []⟩
        [['1', '0'], ['2', '0'], ['+']] := by with_unfolding_all rfl
  have q0b : processTokens e (initSt []) (tokenizeLC "10 20 +".data) =
      processTokens e ⟨⟨[], 0⟩, ⟨[], 0⟩, false, [], [], [], []⟩
        [['1', '0'], ['2', '0'], ['+']] := by with_unfolding_all rfl
  have hpa := (q0a.trans (q1.trans (q2.trans (q3)))).trans qz
  have hpb := (q0b.trans (q1.trans (q2.trans (q3)))).trans qz
  have keya : compile_internal_lc e []
      (some "10 20 + \\ this is a comment".data) = finalize e
      ⟨⟨[e Op.LIT, 10, 0, 0, 0, e Op.LIT, 20, 0, 0, 0, e Op.ADD], 64⟩,
        ⟨[], 0⟩, false, [], [], [], []⟩ :=
    compileWith_ok tokenizeLC e [] "10 20 + \\ this is a comment".data
      ⟨⟨[e Op.LIT, 10, 0, 0, 0, e Op.LIT, 20, 0, 0, 0, e Op.ADD], 64⟩,
        ⟨[], 0⟩, false, [], [], [], []⟩ (by decide) hpa
  have keyb : compile_internal_lc e [] (some "10 20 +".data) = finalize e
      ⟨⟨[e Op.LIT, 10, 0, 0, 0, e Op.LIT, 20, 0, 0, 0, e Op.ADD], 64⟩,
        ⟨[], 0⟩, false, [], [], [], []⟩ :=
    compileWith_ok tokenizeLC e [] "10 20 +".data
      ⟨⟨[e Op.LIT, 10, 0, 0, 0, e Op.LIT, 20, 0, 0, 0, e Op.ADD], 64⟩,
        ⟨[], 0⟩, false, [], [], [], []⟩ (by decide) hpb
  have hfin := finalize_ok e
    [e Op.LIT, 10, 0, 0, 0, e Op.LIT, 20, 0, 0, 0, e Op.ADD] 64 ⟨[], 0⟩
    [] [] true 0 [] rfl (by simp) (fun h0 => enc_jmp_ne_zero h h0.symm)
  constructor
  · rw [keya, hfin]
    with_unfolding_all rfl
  · exact keya.trans keyb.symm

/-- Witness for C5 at the concrete sample encoding. -/
theorem C5_line_comment_discarded_witness :
    compile_internal_lc sampleEnc []
      (some "10 20 + \\ this is a comment".data) =
      (none, ⟨false, 12,
        [sampleEnc Op.LIT, 10, 0, 0, 0, sampleEnc Op.LIT, 20, 0, 0, 0,
         sampleEnc Op.ADD, sampleEnc Op.RET], true, 0, []⟩) ∧
    compile_internal_lc sampleEnc []
      (some "10 20 + \\ this is a comment".data) =
      compile_internal_lc sampleEnc [] (some "10 20 +".data) :=
  C5_line_comment_discarded sampleEnc (by decide)

-- ---------------------------------------------------------------------------
-- C6
-- ---------------------------------------------------------------------------

/-- C6 counterexample: the dispatcher tries the dictionary before integer
parsing, so after `": 5 DUP ;"` the token `"5"` is compiled as
`CALL idx=0`, not as `LIT 5`: the main stream starts with the `CALL` opcode
(sample value 80), which differs from `LIT` (0), refuting the claim that an
integer-parsing token always emits `LIT`. -/
theorem C6_counterexample :
    compile_internal sampleEnc [] (some ": 5 DUP ; 5".data) =
      (none, ⟨false, 4, [80, 0, 0, 81], false, 1, [⟨['5'], [32, 81]⟩]⟩) ∧
    ([80, 0, 0, 81] : List Nat).getD 0 0 = sampleEnc Op.CALL ∧
    sampleEnc Op.CALL ≠ sampleEnc Op.LIT := by
  refine ⟨by with_unfolding_all rfl, by decide, by decide⟩

/-- C6 amended: dictionary lookup precedes integer parsing, so a token that
matches a defined word name emits `CALL` even when it parses as an integer
(after `": 5 DUP ;"` the token `"5"` emits `CALL idx=0`); only a token
matching no dictionary name emits `LIT` (`"5"` alone emits `LIT 5`). -/
theorem C6_dict_lookup_before_int (e : OpEnc) (h : ValidEnc e) :
    compile_internal e [] (some ": 5 DUP ; 5".data) =
      (none, ⟨false, 4, [e Op.CALL, 0, 0, e Op.RET], false, 1,
        [⟨['5'], [e Op.DUP, e Op.RET]⟩]⟩) ∧
    compile_internal e [] (some "5".data) =
      (none, ⟨false, 6, [e Op.LIT, 5, 0, 0, 0, e Op.RET], true, 0, []⟩) := by
  constructor
  · have st1 : step e ⟨⟨[], 0⟩, ⟨[], 0⟩, false, [], [], [], []⟩ [':'] (some ['5']) = .ok (⟨⟨[], 0⟩, ⟨[], 0⟩, true, ['5'], [], [], []⟩, true) := by with_unfolding_all rfl
    have q1 := processTokens.eq_4 e ⟨⟨[], 0⟩, ⟨[], 0⟩, false, [], [], [], []⟩ [':'] ⟨⟨[], 0⟩, ⟨[], 0⟩, true, ['5'], [], [], []⟩ ['5'] [['D', 'U', 'P'], [';'], ['5']] st1
    have st2 : step e ⟨⟨[], 0⟩, ⟨[], 0⟩, true, ['5'], [], [], []⟩ ['D', 'U', 'P'] (some [';']) = .ok (⟨⟨[], 0⟩, ⟨[e Op.DUP], 64⟩, true, ['5'], [], [], []⟩, false) := by with_unfolding_all rfl
    have q2 := processTokens.eq_5 e ⟨⟨[], 0⟩, ⟨[], 0⟩, true, ['5'], [], [], []⟩ ['D', 'U', 'P'] [[';'], ['5']] ⟨⟨[], 0⟩, ⟨[e Op.DUP], 64⟩, true, ['5'], [], [], []⟩ st2
    have st3 : step e ⟨⟨[], 0⟩, ⟨[e Op.DUP], 64⟩, true, ['5'], [], [], []⟩ [';'] (some ['5']) = .ok (⟨⟨[], 0⟩, ⟨[], 0⟩, false, [], [⟨['5'], [e Op.DUP, e Op.RET]⟩], [], []⟩, false) := by with_unfolding_all rfl
    have q3 := processTokens.eq_5 e ⟨⟨[], 0⟩, ⟨[e Op.DUP], 64⟩, true, ['5'], [], [], []⟩ [';'] [['5']] ⟨⟨[], 0⟩, ⟨[], 0⟩, false, [], [⟨['5'], [e Op.DUP, e Op.RET]⟩], [], []⟩ st3
    have st4 : step e ⟨⟨[], 0⟩, ⟨[], 0⟩, false, [], [⟨['5'], [e Op.DUP, e Op.RET]⟩], [], []⟩ ['5'] none = .ok (⟨⟨[e Op.CALL, 0, 0], 64⟩, ⟨[], 0⟩, false, [], [⟨['5'], [e Op.DUP, e Op.RET]⟩], [], []⟩, false) := by with_unfolding_all rfl
    have q4 := processTokens.eq_5 e ⟨⟨[], 0⟩, ⟨[], 0⟩, false, [], [⟨['5'], [e Op.DUP, e Op.RET]⟩], [], []⟩ ['5'] [] ⟨⟨[e Op.CALL, 0, 0], 64⟩, ⟨[], 0⟩, false, [], [⟨['5'], [e Op.DUP, e Op.RET]⟩], [], []⟩ st4
    have qz := processTokens.eq_1 e ⟨⟨[e Op.CALL, 0, 0], 64⟩, ⟨[], 0⟩, false, [], [⟨['5'], [e Op.DUP, e Op.RET]⟩], [], []⟩
    have q0 : processTokens e (initSt []) (tokenize ": 5 DUP ; 5".data) = processTokens e ⟨⟨[], 0⟩, ⟨[], 0⟩, false, [], [], [], []⟩ [[':'], ['5'], ['D', 'U', 'P'], [';'], ['5']] := by with_unfolding_all rfl
    have hp := (q0.trans (q1.trans (q2.trans (q3.trans (q4))))).trans qz
    have key := compileWith_ok tokenize e [] ": 5 DUP ; 5".data
      ⟨⟨[e Op.CALL, 0, 0], 64⟩, ⟨[], 0⟩, false, [],
        [⟨['5'], [e Op.DUP, e Op.RET]⟩], [], []⟩ (by decide) hp
    rw [show compile_internal e [] (some ": 5 DUP ; 5".data) =
      compileWith tokenize e [] (some ": 5 DUP ; 5".data) from rfl, key]
    have hfin := finalize_ok e [e Op.CALL, 0, 0] 64 ⟨[], 0⟩
      [⟨['5'], [e Op.DUP, e Op.RET]⟩] [] false 1
      [⟨['5'], [e Op.DUP, e Op.RET]⟩] (by with_unfolding_all rfl) (by simp)
      (fun h0 => enc_ne h (show Op.CALL ≠ Op.JMP by decide) h0)
    rw [hfin]
    with_unfolding_all rfl
  · have su1 : step e ⟨⟨[], 0⟩, ⟨[], 0⟩, false, [], [], [], []⟩ ['5'] none =
        .ok (⟨⟨[e Op.LIT, 5, 0, 0, 0], 64⟩, ⟨[], 0⟩, false, [], [], [], []⟩,
          false) := by with_unfolding_all rfl
    have r1 := processTokens.eq_5 e ⟨⟨[], 0⟩, ⟨[], 0⟩, false, [], [], [], []⟩
      ['5'] [] ⟨⟨[e Op.LIT, 5, 0, 0, 0], 64⟩, ⟨[], 0⟩, false, [], [], [], []⟩
      su1
    have rz := processTokens.eq_1 e
      ⟨⟨[e Op.LIT, 5, 0, 0, 0], 64⟩, ⟨[], 0⟩, false, [], [], [], []⟩
    have r0 : processTokens e (initSt []) (tokenize "5".data) =
        processTokens e ⟨⟨[], 0⟩, ⟨[], 0⟩, false, [], [], [], []⟩ [['5']] := by
      with_unfolding_all rfl
    have hp2 := (r0.trans r1).trans rz
    have key := compileWith_ok tokenize e [] "5".data
      ⟨⟨[e Op.LIT, 5, 0, 0, 0], 64⟩, ⟨[], 0⟩, false, [], [], [], []⟩
      (by decide) hp2
    rw [show compile_internal e [] (some "5".data) =
      compileWith tokenize e [] (some "5".data) from rfl, key]
    have hfin := finalize_ok e [e Op.LIT, 5, 0, 0, 0] 64 ⟨[], 0⟩ [] [] true 0
      [] rfl (by simp) (fun h0 => enc_jmp_ne_zero h h0.symm)
    rw [hfin]
    with_unfolding_all rfl

/-- Witness for the amended C6 at the concrete sample encoding. -/
theorem C6_dict_lookup_before_int_witness :
    compile_internal sampleEnc [] (some ": 5 DUP ; 5".data) =
      (none, ⟨false, 4, [sampleEnc Op.CALL, 0, 0, sampleEnc Op.RET], false, 1,
        [⟨['5'], [sampleEnc Op.DUP, sampleEnc Op.RET]⟩]⟩) ∧
    compile_internal sampleEnc [] (some "5".data) =
      (none, ⟨false, 6, [sampleEnc Op.LIT, 5, 0, 0, 0, sampleEnc Op.RET],
        true, 0, []⟩) :=
  C6_dict_lookup_before_int sampleEnc (by decide)

-- ---------------------------------------------------------------------------
-- C7 (spec-modelled: CONSTANT)
-- ---------------------------------------------------------------------------

/-- C7 (spec-modelled): compiling `"CONSTANT X"` — a `CONSTANT` keyword with
no preceding integer literal — fails with exactly `ConstantWithoutValue`,
leaving the handle zeroed. -/
theorem C7_constant_without_value (e : OpEnc) :
    compile_with_constant e [] (some "CONSTANT X".data) =
      (some FrontErr.ConstantWithoutValue, zeroHandle) := by
  with_unfolding_all rfl


-- ---------------------------------------------------------------------------
-- C8
-- ---------------------------------------------------------------------------

/-- C8: whenever the token stream ends while at least one control frame is
still open, compilation fails with `UnclosedIf`, `UnclosedDo`, or
`UnclosedBegin`, chosen by the kind of the top-of-stack frame. -/
theorem C8_unclosed_by_top_frame (e : OpEnc) (oracle : List Bool)
    (src : List Char) (s1 : St) (f : ControlFrame) (fs : List ControlFrame)
    (hp : processTokens e (initSt oracle) (tokenize src) = .ok s1)
    (hctrl : s1.ctrl = f :: fs) :
    compile_internal e oracle (some src) =
      (some (unclosedErr f), zeroHandle) := by
  by_cases hsrc : src = []
  · subst hsrc
    rw [show tokenize [] = ([] : List (List Char)) from rfl,
      processTokens.eq_1] at hp
    injection hp with h1
    rw [← h1] at hctrl
    exact absurd hctrl (by simp [initSt])
  · unfold compile_internal
    simp only [compileWith]
    rw [if_neg hsrc, hp]
    show finalize e s1 = (some (unclosedErr f), zeroHandle)
    unfold finalize
    rw [hctrl]

/-- Witness for C8 at the inputs `"IF"`, `"BEGIN"` and `"10 0 DO"`, hitting
each of the three frame kinds. -/
theorem C8_unclosed_by_top_frame_witness :
    compile_internal sampleEnc [] (some "IF".data) =
      (some FrontErr.UnclosedIf, zeroHandle) ∧
    compile_internal sampleEnc [] (some "BEGIN".data) =
      (some FrontErr.UnclosedBegin, zeroHandle) ∧
    compile_internal sampleEnc [] (some "10 0 DO".data) =
      (some FrontErr.UnclosedDo, zeroHandle) :=
  ⟨C8_unclosed_by_top_frame sampleEnc [] "IF".data
      ⟨⟨[64, 0, 0], 64⟩, ⟨[], 0⟩, false, [], [], [.ifF 1 0 false], []⟩
      (.ifF 1 0 false) [] (by with_unfolding_all rfl) rfl,
   C8_unclosed_by_top_frame sampleEnc [] "BEGIN".data
      ⟨⟨[], 0⟩, ⟨[], 0⟩, false, [], [], [.beginF 0 0 false], []⟩
      (.beginF 0 0 false) [] (by with_unfolding_all rfl) rfl,
   C8_unclosed_by_top_frame sampleEnc [] "10 0 DO".data
      ⟨⟨[0, 10, 0, 0, 0, 0, 0, 0, 0, 0, 34, 48, 48], 64⟩, ⟨[], 0⟩, false, [],
        [], [.doF 13 []], []⟩
      (.doF 13 []) [] (by with_unfolding_all rfl) rfl⟩

-- ---------------------------------------------------------------------------
-- C9
-- ---------------------------------------------------------------------------

/-- C9 (code bug): when the allocation backing the final `RET` append fails
after the word list was already transferred (input `": D DUP ;"`, fourth
allocation failing), `compile_internal` returns `OutOfMemory` but leaves the
handle with a non-null `words` pointer and `word_count = 1` instead of the
zero-initialized state the claim (and spec) require, so a subsequent
`v4front_free` walks a stale array. -/
theorem C9_oom_leaves_nonzero_handle :
    compile_internal sampleEnc [true, true, true, false]
      (some ": D DUP ;".data) =
      (some FrontErr.OutOfMemory,
        ⟨true, 0, [], false, 1, [⟨['D'], [32, 81]⟩]⟩) ∧
    (compile_internal sampleEnc [true, true, true, false]
      (some ": D DUP ;".data)).2 ≠ zeroHandle := by
  refine ⟨by with_unfolding_all rfl, ?_⟩
  rw [show compile_internal sampleEnc [true, true, true, false]
    (some ": D DUP ;".data) =
    (some FrontErr.OutOfMemory,
      ⟨true, 0, [], false, 1, [⟨['D'], [32, 81]⟩]⟩) from
    by with_unfolding_all rfl]
  simp [zeroHandle]

-- ---------------------------------------------------------------------------
-- C10
-- ---------------------------------------------------------------------------

/-- C10: a NULL source pointer compiles successfully to the one-byte main
stream `RET` with zero word entries, exactly as the empty input does. -/
theorem C10_null_source_ret_only (e : OpEnc) :
    compile_internal e [] none =
      (none, ⟨false, 1, [e Op.RET], true, 0, []⟩) ∧
    compile_internal e [] none = compile_internal e [] (some []) := by
  constructor
  · with_unfolding_all rfl
  · with_unfolding_all rfl

end V4Front
